import Mathlib

/-!
Shallow embedding of the orchestration logic of src/bot.py (a chat bot that
fetches media for a link through an external extraction tool).

The extraction tool itself (yt-dlp) and the chat transport (aiogram) are
external collaborators; they appear here as black-box function parameters.
Everything else — the client-profile retry ladders, the temp-file lifecycle,
the bounded progress queue, the link parser, the session store, and the
format-selection flow — is translated from the source.

The filesystem of the scratch directory is modelled as the list of existing
file names; outbound chat operations and internal control points are recorded
as an event trace.
-/

namespace PodcastBot

/-- Video metadata as assembled by get_video_info from the extractor's info dict
(title, duration in seconds, uploader, video id). -/
structure VideoInfo where
  title : String
  duration : Nat
  uploader : String
  video_id : String
  deriving DecidableEq, Repr

/-! ## Session store (the module-level dict video_urls) -/

/-- The in-memory session store video_urls, a dict from video id to source url,
modelled as a partial map. -/
def SStore : Type := String → Option String

/-- Dict assignment: video_urls[video_id] = url. -/
def store_put (s : SStore) (k v : String) : SStore :=
  fun q => if q = k then some v else s q

/-- Dict lookup: video_urls.get(video_id). -/
def store_get (s : SStore) (k : String) : Option String := s k

/-- Dict removal: video_urls.pop(video_id, None). -/
def store_pop (s : SStore) (k : String) : SStore :=
  fun q => if q = k then none else s q

/-- The initial, empty store. -/
def store_empty : SStore := fun _ => none

/-! ## Bounded progress queue and the download progress hook -/

/-- A bounded progress queue: asyncio.Queue(maxsize=...) holding status strings. -/
structure BQueue where
  maxsize : Nat
  items : List String
  deriving DecidableEq, Repr

/-- queue.put_nowait wrapped in try/except QueueFull (bot.py lines 190-193):
append the event if the queue is below capacity, otherwise drop it silently. -/
def put_nowait (q : BQueue) (x : String) : BQueue :=
  if q.items.length < q.maxsize then { q with items := q.items ++ [x] } else q

/-- The progress queue created by handle_format_selection:
asyncio.Queue(maxsize=10) (bot.py line 463). -/
def progress_queue_init : BQueue := ⟨10, []⟩

/-- The fields of the yt-dlp progress dict that the hook reads.  A field is
None when the key is absent from the dict; reading an absent key raises
KeyError, which the hook's outer try swallows. -/
structure ProgressDict where
  status : Option String
  total_bytes : Option Nat
  downloaded_bytes : Option Nat
  deriving DecidableEq, Repr

/-- progress_hook from download_audio / download_video (bot.py lines 173-195
and 264-286).  fmt_percent stands for the floating-point percent text
(f-string with percent to one decimal place), a pure rendering detail; the
downloading / finished parameters are the two fixed status texts, which differ
between the audio and the video variant.  A zero total_bytes raises
ZeroDivisionError and a missing key raises KeyError; both are swallowed by the
hook's outer try, leaving the queue unchanged. -/
def progress_hook (fmt_percent : Nat → Nat → String) (downloading finished : String)
    (d : ProgressDict) (q : BQueue) : BQueue :=
  match d.status with
  | none => q
  | some s =>
    if s = "downloading" then
      match d.total_bytes, d.downloaded_bytes with
      | some t, some n => if t = 0 then q else put_nowait q (fmt_percent n t)
      | some _, none => q
      | none, some n => put_nowait q (downloading ++ " " ++ toString n ++ " bytes")
      | none, none => put_nowait q downloading
    else if s = "finished" then put_nowait q finished
    else q

/-! ## The client-profile retry ladder of get_video_info -/

/-- The fixed, ordered list of player-client configurations tried by every
fetch (bot.py lines 129-133, 210-214, 297-301). -/
def player_clients_list : List (List String) :=
  [["android_music", "android"], ["android"], ["web"]]

/-- Loop body of get_video_info over the given profile list, threading
last_error exactly as the source does and counting extraction attempts.
extract is the black-box ydl.extract_info call for one profile: it returns the
assembled info dict or the raised error. -/
def get_video_info_go (extract : List String → Except String VideoInfo) :
    List (List String) → Option String → Except String VideoInfo × Nat
  | [], last => (.error (last.getD "Failed to get video info"), 0)
  | pc :: rest, last =>
    match extract pc with
    | .ok info => (.ok info, 1)
    | .error e =>
      let r := get_video_info_go extract rest (some e)
      (r.1, r.2 + 1)

/-- get_video_info (bot.py lines 120-157): try the player clients in order,
return the first success immediately, raise the last-seen error when all
fail.  The second component is the number of extraction attempts made. -/
def get_video_info (extract : List String → Except String VideoInfo) :
    Except String VideoInfo × Nat :=
  get_video_info_go extract player_clients_list none

/-! ## Media fetchers (download_audio / download_video) over a filesystem model -/

/-- The temp file name for an identifier and extension: TEMP_DIR/video_id.ext. -/
def tempName (videoId ext : String) : String := videoId ++ "." ++ ext

/-- Extensions cleaned up around each audio attempt (bot.py lines 220, 247). -/
def audio_exts : List String := ["mp3", "m4a", "webm", "opus"]

/-- Extensions cleaned up around each video attempt (bot.py lines 307, 340). -/
def video_exts : List String := ["mp4", "webm", "mkv", "m4a"]

/-- Extensions searched for the produced video file (bot.py line 325). -/
def video_out_exts : List String := ["mp4", "webm", "mkv"]

/-- The per-extension unlink loop: for each recognized extension, delete
video_id.ext if it exists (the unlink itself is wrapped in try/pass).  The
filesystem is the list of existing file names. -/
def cleanup_temp (videoId : String) (exts : List String) (fs : List String) : List String :=
  fs.filter (fun f => !((exts.map (tempName videoId)).contains f))

/-- Locate the produced audio file: video_id.mp3 if it exists (bot.py 237-239). -/
def find_audio_output (videoId : String) (fs : List String) : Option String :=
  if fs.contains (tempName videoId "mp3") then some (tempName videoId "mp3") else none

/-- Locate the produced video file: the first of video_id.mp4 / .webm / .mkv
that exists (bot.py 324-329). -/
def find_video_output (videoId : String) (fs : List String) : Option String :=
  (video_out_exts.map (tempName videoId)).find? (fun f => fs.contains f)

/-- Shared retry-ladder body of download_audio / download_video.  dl pc fs is
the black-box ydl.download call for profile pc on filesystem fs: it returns
the filesystem after the attempt together with the raised error, if any.
Per attempt: clean all recognized extensions, run the download, and on a
reported success locate the output (a missing output raises FileNotFoundError
inside the try, so it is recorded as the attempt's error and the ladder moves
on after cleaning up again).  Returns the result, the final filesystem, and
the filesystem handed to dl at each attempt (so one trace entry per attempt). -/
def fetch_media_go (dl : List String → List String → List String × Option String)
    (exts : List String) (findOut : List String → Option String)
    (notFoundErr dflt videoId : String) :
    List (List String) → Option String → List String →
    Except String String × List String × List (List String)
  | [], last, fs => (.error (last.getD dflt), fs, [])
  | pc :: rest, last, fs =>
    let fs1 := cleanup_temp videoId exts fs
    let step := dl pc fs1
    match step.2 with
    | some e =>
      let r := fetch_media_go dl exts findOut notFoundErr dflt videoId rest (some e)
        (cleanup_temp videoId exts step.1)
      (r.1, r.2.1, fs1 :: r.2.2)
    | none =>
      match findOut step.1 with
      | some p => (.ok p, step.1, [fs1])
      | none =>
        let r := fetch_media_go dl exts findOut notFoundErr dflt videoId rest (some notFoundErr)
          (cleanup_temp videoId exts step.1)
        (r.1, r.2.1, fs1 :: r.2.2)

/-- download_audio (bot.py lines 169-257): the audio ladder over the fixed
player-client list. -/
def download_audio (dl : List String → List String → List String × Option String)
    (videoId : String) (fs : List String) :
    Except String String × List String × List (List String) :=
  fetch_media_go dl audio_exts (find_audio_output videoId)
    ("Downloaded file not found: " ++ tempName videoId "mp3")
    "Failed to download audio" videoId player_clients_list none fs

/-- download_video (bot.py lines 260-350): the video ladder over the fixed
player-client list. -/
def download_video (dl : List String → List String → List String × Option String)
    (videoId : String) (fs : List String) :
    Except String String × List String × List (List String) :=
  fetch_media_go dl video_exts (find_video_output videoId)
    ("Downloaded video file not found for " ++ videoId)
    "Failed to download video" videoId player_clients_list none fs

/-! ## Link parser (YOUTUBE_PATTERNS and extract_video_id)

The three regular expressions of bot.py lines 40-44 are built from literal
pieces only: an optional scheme, an optional www dot, a literal core (with an
alternation in the first pattern), and a capturing group of exactly eleven
identifier characters.  re.search is embedded directly: try the pattern at
every start position from the left, and at a position try the optional pieces
greedily, exactly in the order the regex engine would. -/

/-- The identifier character class of the patterns: letters, digits,
underscore and hyphen. -/
def isIdChar (c : Char) : Bool := c.isAlpha || c.isDigit || c = '_' || c = '-'

/-- Match a literal at the front of the input, returning the remainder. -/
def stripLit : List Char → List Char → Option (List Char)
  | [], cs => some cs
  | _ :: _, [] => none
  | l :: ls, c :: cs => if l = c then stripLit ls cs else none

/-- Match the capturing group: exactly eleven identifier characters. -/
def grabId (rest : List Char) : Option (List Char) :=
  let v := rest.take 11
  if v.length = 11 && v.all isIdChar then some v else none

/-- Match one core literal followed by the capturing group. -/
def matchCoreAt (core cs : List Char) : Option (List Char) :=
  match stripLit core cs with
  | some rest => grabId rest
  | none => none

/-- The remainders the optional scheme can leave, in the engine's greedy try
order: https scheme consumed, http scheme consumed, nothing consumed. -/
def urlPrefixAlts (cs : List Char) : List (List Char) :=
  (match stripLit ("https://".toList) cs with | some r => [r] | none => []) ++
    (match stripLit ("http://".toList) cs with | some r => [r] | none => []) ++ [cs]

/-- The remainders the optional www dot can leave, greedy order. -/
def wwwAlts (cs : List Char) : List (List Char) :=
  (match stripLit ("www.".toList) cs with | some r => [r] | none => []) ++ [cs]

/-- Try one pattern (its ordered list of core literals) anchored at the given
position: optional scheme, optional www dot, then the first core that
matches, then the group. -/
def matchPatternAt (cores : List (List Char)) (cs : List Char) : Option (List Char) :=
  (urlPrefixAlts cs).findSome? fun r1 =>
    (wwwAlts r1).findSome? fun r2 =>
      cores.findSome? fun core => matchCoreAt core r2

/-- re.search: try the pattern at each start position from the left and
return the first captured group. -/
def re_search (cores : List (List Char)) : List Char → Option (List Char)
  | [] => matchPatternAt cores []
  | c :: rest =>
    match matchPatternAt cores (c :: rest) with
    | some v => some v
    | none => re_search cores rest

/-- Core literal of the standard watch link (first alternative of pattern 1). -/
def pat_watch : List Char := "youtube.com/watch?v=".toList

/-- Core literal of the short link (second alternative of pattern 1). -/
def pat_be : List Char := "youtu.be/".toList

/-- Core literal of the embed link (pattern 2). -/
def pat_embed : List Char := "youtube.com/embed/".toList

/-- Core literal of the shorts link (pattern 3). -/
def pat_shorts : List Char := "youtube.com/shorts/".toList

/-- YOUTUBE_PATTERNS (bot.py lines 40-44): the ordered pattern list, each
pattern given by its ordered core alternatives. -/
def YOUTUBE_PATTERNS : List (List (List Char)) :=
  [[pat_watch, pat_be], [pat_embed], [pat_shorts]]

/-- extract_video_id (bot.py lines 54-71): search each pattern in order and
return the first captured identifier, if any. -/
def extract_video_id (s : String) : Option String :=
  (YOUTUBE_PATTERNS.findSome? fun cores => re_search cores s.toList).map
    fun v => String.mk v

/-- The four supported shape cores, for stating the parser's contract. -/
def shapeCores : List (List Char) := [pat_watch, pat_be, pat_embed, pat_shorts]

/-- A valid captured identifier: exactly eleven identifier characters. -/
def validId (v : List Char) : Bool := v.length = 11 && v.all isIdChar

/-- The input contains a supported URL shape with a valid identifier. -/
def hasShape (s : List Char) : Prop :=
  ∃ pre core id suf, core ∈ shapeCores ∧ validId id = true ∧
    s = pre ++ core ++ id ++ suf

/-! ## The format-selection flow (handle_format_selection)

The async handler is linearized into a pure function from the session store
and the callback payload to the store after the flow plus a trace of the
outbound operations and internal control points, in program order.  The two
black-box calls it makes (the metadata re-fetch and the media fetch) are
supplied as outcomes in a FlowEnv, together with the two values the flow
reads from the produced artifact (its rendered size text and whether it still
exists when the cleanup step runs). -/

/-- One observable step of the format-selection flow, in program order. -/
inductive Ev
  /-- await callback.answer() -/
  | ack
  /-- callback.message.answer(text) -/
  | reply (text : String)
  /-- status_message.edit_text(text) -/
  | editStatus (text : String)
  /-- video_urls.get(video_id) -/
  | storeGet (id : String)
  /-- the get_video_info call inside the flow -/
  | infoFetch
  /-- asyncio.create_task(monitor_progress()) -/
  | relayStart
  /-- the download_audio / download_video call (kind is mp3 or mp4) -/
  | mediaFetch (kind : String)
  /-- callback.message.answer_audio(...) -/
  | sendAudio
  /-- callback.message.answer_video(...) -/
  | sendVideo
  /-- monitor_task.cancel() -/
  | relayCancel
  /-- await monitor_task, swallowing CancelledError -/
  | relayAwait
  /-- file_path.unlink() in the cleanup step -/
  | unlinkTemp (name : String)
  /-- an exception inside the cleanup step, logged and swallowed -/
  | cleanupFailLogged
  /-- video_urls.pop(video_id, None) in the cleanup step -/
  | sessionPop (id : String)
  deriving DecidableEq, Repr

/-- Python's str.split(sep, 2) for a one-character separator: at most two
splits, the remainder is kept whole in the third part. -/
def splitOnceChar (c : Char) : List Char → Option (List Char × List Char)
  | [] => none
  | x :: xs =>
    if x = c then some ([], xs)
    else (splitOnceChar c xs).map fun r => (x :: r.1, r.2)

/-- callback.data.split(":", 2) (bot.py line 441). -/
def split_maxsplit2 (s : String) : List String :=
  match splitOnceChar ':' s.toList with
  | none => [s]
  | some (a, r) =>
    match splitOnceChar ':' r with
    | none => [String.mk a, String.mk r]
    | some (b, c) => [String.mk a, String.mk b, String.mk c]

/-- Substring test (Python's in operator on str), by trying every suffix. -/
def containsSub (needle : List Char) : List Char → Bool
  | [] => (stripLit needle []).isSome
  | c :: rest => (stripLit needle (c :: rest)).isSome || containsSub needle rest

/-- e1 in e2 for strings. -/
def str_in (needle hay : String) : Bool := containsSub needle.toList hay.toList

/-- The error classification of the outer except block of
handle_format_selection (bot.py lines 584-595): free-text matching on the
exception text, rendered as a single user-safe status line. -/
def classify_process_error (e : String) : String :=
  if str_in "Private video" e || str_in "unavailable" e.toLower then
    "❌ This video is unavailable or private."
  else if str_in "Sign in" e || str_in "age-restricted" e.toLower then
    "❌ This video is age-restricted or requires sign-in."
  else if str_in "File too large" e || str_in "too large" e.toLower then
    "❌ File is too large to upload to Telegram."
  else "❌ An error occurred while processing the video."

/-- A minute:second rendering of a duration, two-digit seconds. -/
def fmt_duration (d : Nat) : String :=
  toString (d / 60) ++ ":" ++ (if d % 60 < 10 then "0" else "") ++ toString (d % 60)

/-- The fixed metadata header of the status edits during a fetch. -/
def info_header (info : VideoInfo) : String :=
  "📹 " ++ info.title ++ "\n👤 " ++ info.uploader ++ "\n⏱ " ++
    fmt_duration info.duration ++ "\n\n"

/-- Outcomes of the black-box calls the flow makes, plus the two values it
reads from the produced artifact. -/
structure FlowEnv where
  /-- result of the metadata re-fetch (get_video_info at bot.py line 459) -/
  info : Except String VideoInfo
  /-- result of the media fetch: artifact path, or the raised error -/
  media : Except String String
  /-- format_size of the artifact (a pure rendering of its byte size) -/
  size_text : String
  /-- whether the artifact size exceeds MAX_FILE_SIZE_WARNING (mp4 path) -/
  large : Bool
  /-- whether file_path.exists() still holds when the cleanup step runs -/
  artifact_exists : Bool

/-- The finally block of the flow (bot.py lines 562-582): cancel the relay
and await it, then attempt the temp-file removal (a NameError from a never
assigned file_path, like any other failure there, is logged and swallowed),
then pop the session entry. -/
def cleanup_evs (file_path : Option String) (exists_now : Bool) (videoId : String) :
    List Ev :=
  [.relayCancel, .relayAwait] ++
    (match file_path with
      | some p => if exists_now then [Ev.unlinkTemp p] else []
      | none => [Ev.cleanupFailLogged]) ++
    [.sessionPop videoId]

/-- handle_format_selection (bot.py lines 435-595), linearized: returns the
store after the flow and the trace of its observable steps in program order. -/
def handle_format_selection (env : FlowEnv) (store : SStore) (data : String) :
    SStore × List Ev :=
  match split_maxsplit2 data with
  | [_, format_type, video_id] =>
    let url := (store_get store video_id).getD ""
    if url = "" then
      (store, [.ack, .storeGet video_id,
        .reply "❌ Video URL not found. Please send the link again."])
    else
      match env.info with
      | .error e =>
        (store, [.ack, .storeGet video_id, .reply "🔍 Processing...", .infoFetch,
          .editStatus (classify_process_error e)])
      | .ok info =>
        let pre : List Ev :=
          [.ack, .storeGet video_id, .reply "🔍 Processing...", .infoFetch, .relayStart]
        let header := info_header info
        if format_type = "mp3" then
          match env.media with
          | .ok p =>
            (store_pop store video_id,
              pre ++ [.editStatus (header ++ "📥 Starting download..."),
                .mediaFetch "mp3",
                .editStatus ("📤 Uploading MP3 file (" ++ env.size_text ++ ")..."),
                .sendAudio, .editStatus "✅ Done! MP3 file sent."] ++
                cleanup_evs (some p) env.artifact_exists video_id)
          | .error e =>
            (store_pop store video_id,
              pre ++ [.editStatus (header ++ "📥 Starting download..."),
                .mediaFetch "mp3"] ++
                cleanup_evs none false video_id ++
                [.editStatus (classify_process_error e)])
        else if format_type = "mp4" then
          let warn := if env.large then
            "\n⚠️ File is large (" ++ env.size_text ++ "), upload may take time..."
          else ""
          match env.media with
          | .ok p =>
            (store_pop store video_id,
              pre ++ [.editStatus (header ++ "📥 Starting download..."),
                .mediaFetch "mp4",
                .editStatus ("📤 Uploading MP4 file (" ++ env.size_text ++ ")..." ++ warn),
                .sendVideo, .editStatus "✅ Done! MP4 file sent."] ++
                cleanup_evs (some p) env.artifact_exists video_id)
          | .error e =>
            (store_pop store video_id,
              pre ++ [.editStatus (header ++ "📥 Starting download..."),
                .mediaFetch "mp4"] ++
                cleanup_evs none false video_id ++
                [.editStatus (classify_process_error e)])
        else
          (store_pop store video_id,
            pre ++ [.editStatus "❌ Unknown format selected."] ++
              cleanup_evs none false video_id)
  | _ => (store, [.ack, .reply "❌ Invalid format selection."])

/-! ## Trace predicates for the relay-cancellation ordering -/

/-- Is this event a status-message edit? -/
def is_edit : Ev → Bool
  | .editStatus _ => true
  | _ => false

/-- Is this event the relay cancellation? -/
def is_cancel : Ev → Bool
  | .relayCancel => true
  | _ => false

/-- Is this event the await of the canceled relay? -/
def is_await : Ev → Bool
  | .relayAwait => true
  | _ => false

/-- Index of the first event satisfying p. -/
def first_idx (p : Ev → Bool) : List Ev → Option Nat
  | [] => none
  | e :: tr => if p e then some 0 else (first_idx p tr).map (· + 1)

/-- Index of the last status-message edit of a trace. -/
def last_edit_idx (tr : List Ev) : Option Nat :=
  (first_idx is_edit tr.reverse).map fun k => tr.length - 1 - k

/-- The ordering the claim asserts: the relay is canceled, the cancellation
is awaited, and both happen before the terminal (last) status-message edit of
the flow. -/
def relay_stops_before_terminal_edit (tr : List Ev) : Bool :=
  match first_idx is_cancel tr, first_idx is_await tr, last_edit_idx tr with
  | some i, some j, some k => decide (i < k) && decide (j < k)
  | none, _, _ => false
  | some _, none, _ => false
  | some _, some _, none => true

/-! ## Helper lemmas -/

theorem put_nowait_full (q : BQueue) (x : String) (h : q.maxsize ≤ q.items.length) :
    put_nowait q x = q := by
  unfold put_nowait
  rw [if_neg (by omega)]

theorem put_nowait_len (q : BQueue) (x : String) :
    (put_nowait q x).items.length ≤ max q.items.length q.maxsize := by
  unfold put_nowait
  split
  next h =>
    show (q.items ++ [x]).length ≤ max q.items.length q.maxsize
    simp only [List.length_append, List.length_singleton]
    omega
  next h => omega

theorem put_nowait_maxsize (q : BQueue) (x : String) :
    (put_nowait q x).maxsize = q.maxsize := by
  unfold put_nowait
  split <;> rfl

theorem progress_hook_shape (fp : Nat → Nat → String) (dt ft : String)
    (d : ProgressDict) (q : BQueue) :
    progress_hook fp dt ft d q = q ∨ ∃ x, progress_hook fp dt ft d q = put_nowait q x := by
  unfold progress_hook
  rcases d with ⟨st, tb, db⟩
  rcases st with _ | s
  · exact Or.inl rfl
  · dsimp only
    split
    · rcases tb with _ | t <;> rcases db with _ | n <;> dsimp only
      · exact Or.inr ⟨dt, rfl⟩
      · exact Or.inr ⟨dt ++ " " ++ toString n ++ " bytes", rfl⟩
      · exact Or.inl rfl
      · split
        · exact Or.inl rfl
        · exact Or.inr ⟨fp n t, rfl⟩
    · split
      · exact Or.inr ⟨ft, rfl⟩
      · exact Or.inl rfl

/-! ## Claim theorems -/

/-- C6: the session store satisfies the map laws the spec states: a get after
a put of the same identifier returns the stored url, a get after a remove of
that identifier returns absent, and a put on one identifier leaves every
distinct identifier's entry unchanged. -/
theorem session_store_ops (s : SStore) (k k' v : String) :
    store_get (store_put s k v) k = some v ∧
    store_get (store_pop s k) k = none ∧
    (k' ≠ k → store_get (store_put s k v) k' = store_get s k') := by
  refine ⟨by simp [store_get, store_put], by simp [store_get, store_pop], fun h => ?_⟩
  simp [store_get, store_put, h]

/-- Witness for C6 at concrete identifiers. -/
theorem session_store_ops_witness :
    store_get (store_put store_empty "k1" "u") "k2" = store_get store_empty "k2" :=
  (session_store_ops store_empty "k1" "k2" "u").2.2 (by decide)

/-- C4: a progress push never blocks the fetch: the hook is a total function
of the queue, a push onto a full queue leaves the queue unchanged (the event
is silently dropped, no error escapes), the stored backlog never exceeds the
capacity already reached, the capacity is never changed, and the queue the
orchestrator creates has capacity 10. -/
theorem progress_push_nonblocking (fp : Nat → Nat → String) (dt ft : String)
    (d : ProgressDict) (q : BQueue) :
    (q.maxsize ≤ q.items.length → progress_hook fp dt ft d q = q) ∧
    (progress_hook fp dt ft d q).items.length ≤ max q.items.length q.maxsize ∧
    (progress_hook fp dt ft d q).maxsize = q.maxsize ∧
    progress_queue_init.maxsize = 10 := by
  rcases progress_hook_shape fp dt ft d q with h | ⟨x, h⟩
  · rw [h]
    exact ⟨fun _ => rfl, by omega, rfl, rfl⟩
  · rw [h]
    exact ⟨fun hf => put_nowait_full q x hf, put_nowait_len q x,
      put_nowait_maxsize q x, rfl⟩

/-- A stand-in for the percent rendering, for the C4 witness. -/
def fmt_percent_stub : Nat → Nat → String := fun _ _ => "p"

/-- Witness for C4: pushing onto a queue already holding 10 events leaves it
unchanged. -/
theorem progress_push_nonblocking_witness :
    progress_hook fmt_percent_stub "d" "f" ⟨some "downloading", none, none⟩
      ⟨10, List.replicate 10 "s"⟩ = ⟨10, List.replicate 10 "s"⟩ :=
  (progress_push_nonblocking fmt_percent_stub "d" "f" ⟨some "downloading", none, none⟩
    ⟨10, List.replicate 10 "s"⟩).1 (by decide)

/-- C1: every metadata or media fetch walks the fixed ordered profile list
with at most one attempt per profile, returns the first successful profile's
result immediately, and when every profile fails it fails with the error of
the last profile tried — stated for get_video_info through its attempt
counter and for download_audio through its per-attempt trace. -/
theorem fetch_ladder_first_success_last_error
    (extract : List String → Except String VideoInfo)
    (dl : List String → List String → List String × Option String)
    (videoId : String) (fs : List String) :
    (∀ i, extract ["android_music", "android"] = .ok i →
      get_video_info extract = (.ok i, 1)) ∧
    (∀ e i, extract ["android_music", "android"] = .error e →
      extract ["android"] = .ok i → get_video_info extract = (.ok i, 2)) ∧
    (∀ e0 e1 e2, extract ["android_music", "android"] = .error e0 →
      extract ["android"] = .error e1 → extract ["web"] = .error e2 →
      get_video_info extract = (.error e2, 3)) ∧
    (∀ e0, (∀ f, (dl ["android_music", "android"] f).2 = some e0) →
      (∀ f, (dl ["android"] f).2 = none) →
      (∀ f, tempName videoId "mp3" ∈ (dl ["android"] f).1) →
      (download_audio dl videoId fs).1 = .ok (tempName videoId "mp3") ∧
        (download_audio dl videoId fs).2.2.length = 2) ∧
    (∀ errOf : List String → String, (∀ pc f, (dl pc f).2 = some (errOf pc)) →
      (download_audio dl videoId fs).1 = .error (errOf ["web"]) ∧
        (download_audio dl videoId fs).2.2.length = 3) := by
  refine ⟨fun i h => ?_, fun e i h1 h2 => ?_, fun e0 e1 e2 h1 h2 h3 => ?_,
    fun e0 h1 h2 h3 => ?_, fun errOf h => ?_⟩
  · simp [get_video_info, get_video_info_go, player_clients_list, h]
  · simp [get_video_info, get_video_info_go, player_clients_list, h1, h2]
  · simp [get_video_info, get_video_info_go, player_clients_list, h1, h2, h3]
  · constructor <;>
      simp [download_audio, fetch_media_go, player_clients_list, find_audio_output,
        h1, h2, h3]
  · constructor <;>
      simp [download_audio, fetch_media_go, player_clients_list, find_audio_output, h]

/-- A metadata extractor failing on the first profile and succeeding on the
second, for the C1 witness. -/
def extract_stub : List String → Except String VideoInfo :=
  fun pc => if pc = ["android"] then .ok ⟨"t", 0, "u", "id"⟩ else .error "boom"

/-- Witness for C1: with the first profile failing and the second
succeeding, the fetch returns the second profile's result after exactly two
attempts. -/
theorem fetch_ladder_first_success_last_error_witness :
    get_video_info extract_stub = (.ok ⟨"t", 0, "u", "id"⟩, 2) :=
  (fetch_ladder_first_success_last_error extract_stub (fun _ f => (f, some "e"))
    "v" []).2.1 "boom" ⟨"t", 0, "u", "id"⟩ rfl rfl

theorem cleanup_temp_not_mem (videoId ext : String) (exts : List String)
    (fs : List String) (h : ext ∈ exts) :
    tempName videoId ext ∉ cleanup_temp videoId exts fs := by
  intro hmem
  rw [cleanup_temp, List.mem_filter] at hmem
  simp at hmem
  exact hmem.2 ext h rfl

theorem fetch_media_go_trace_clean
    (dl : List String → List String → List String × Option String)
    (exts : List String) (findOut : List String → Option String)
    (nf df videoId : String) (ps : List (List String)) (last : Option String)
    (fs : List String) :
    ∀ fsPre ∈ (fetch_media_go dl exts findOut nf df videoId ps last fs).2.2,
      ∀ ext ∈ exts, tempName videoId ext ∉ fsPre := by
  induction ps generalizing last fs with
  | nil =>
    intro fsPre h
    simp [fetch_media_go] at h
  | cons pc rest ih =>
    intro fsPre hmem ext hext
    rcases hdl : (dl pc (cleanup_temp videoId exts fs)).2 with _ | e
    · rcases hfo : findOut (dl pc (cleanup_temp videoId exts fs)).1 with _ | p
      · simp only [fetch_media_go, hdl, hfo, List.mem_cons] at hmem
        rcases hmem with rfl | hmem
        · exact cleanup_temp_not_mem videoId ext exts fs hext
        · exact ih _ _ fsPre hmem ext hext
      · simp only [fetch_media_go, hdl, hfo, List.mem_singleton] at hmem
        subst hmem
        exact cleanup_temp_not_mem videoId ext exts fs hext
    · simp only [fetch_media_go, hdl, List.mem_cons] at hmem
      rcases hmem with rfl | hmem
      · exact cleanup_temp_not_mem videoId ext exts fs hext
      · exact ih _ _ fsPre hmem ext hext

theorem fetch_media_go_error_clean
    (dl : List String → List String → List String × Option String)
    (exts : List String) (findOut : List String → Option String)
    (nf df videoId : String) (e : String) :
    ∀ (ps : List (List String)) (last : Option String) (fs : List String),
      (fetch_media_go dl exts findOut nf df videoId ps last fs).1 = .error e →
      ps = [] ∨ ∀ ext ∈ exts,
        tempName videoId ext ∉ (fetch_media_go dl exts findOut nf df videoId ps last fs).2.1 := by
  intro ps
  induction ps with
  | nil => exact fun last fs _ => Or.inl rfl
  | cons pc rest ih =>
    intro last fs hres
    right
    intro ext hext
    rcases hdl : (dl pc (cleanup_temp videoId exts fs)).2 with _ | e'
    · rcases hfo : findOut (dl pc (cleanup_temp videoId exts fs)).1 with _ | p
      · simp only [fetch_media_go, hdl, hfo] at hres ⊢
        rcases ih _ _ hres with hnil | hclean
        · subst hnil
          simp only [fetch_media_go]
          exact cleanup_temp_not_mem videoId ext exts _ hext
        · exact hclean ext hext
      · simp only [fetch_media_go, hdl, hfo] at hres
        exact Except.noConfusion hres
    · simp only [fetch_media_go, hdl] at hres ⊢
      rcases ih _ _ hres with hnil | hclean
      · subst hnil
        simp only [fetch_media_go]
        exact cleanup_temp_not_mem videoId ext exts _ hext
      · exact hclean ext hext

theorem fetch_media_go_ok_mem
    (dl : List String → List String → List String × Option String)
    (exts : List String) (findOut : List String → Option String)
    (nf df videoId : String)
    (hfind : ∀ fs p, findOut fs = some p → p ∈ fs) :
    ∀ (ps : List (List String)) (last : Option String) (fs : List String) (p : String),
      (fetch_media_go dl exts findOut nf df videoId ps last fs).1 = .ok p →
      p ∈ (fetch_media_go dl exts findOut nf df videoId ps last fs).2.1 := by
  intro ps
  induction ps with
  | nil =>
    intro last fs p hres
    simp [fetch_media_go] at hres
  | cons pc rest ih =>
    intro last fs p hres
    rcases hdl : (dl pc (cleanup_temp videoId exts fs)).2 with _ | e'
    · rcases hfo : findOut (dl pc (cleanup_temp videoId exts fs)).1 with _ | q
      · simp only [fetch_media_go, hdl, hfo] at hres ⊢
        exact ih _ _ _ hres
      · simp only [fetch_media_go, hdl, hfo] at hres ⊢
        cases hres
        exact hfind _ _ hfo
    · simp only [fetch_media_go, hdl] at hres ⊢
      exact ih _ _ _ hres

theorem fetch_media_go_all_missing
    (dl : List String → List String → List String × Option String)
    (exts : List String) (findOut : List String → Option String)
    (nf df videoId : String)
    (h1 : ∀ pc f, (dl pc f).2 = none) (h2 : ∀ pc f, findOut (dl pc f).1 = none) :
    ∀ (ps : List (List String)) (last : Option String) (fs : List String), ps ≠ [] →
      (fetch_media_go dl exts findOut nf df videoId ps last fs).1 = .error nf := by
  intro ps
  induction ps with
  | nil => exact fun last fs hne => absurd rfl hne
  | cons pc rest ih =>
    intro last fs _
    simp only [fetch_media_go, h1, h2]
    rcases rest with _ | ⟨pc2, rest2⟩
    · simp [fetch_media_go]
    · exact ih _ _ (by simp)

theorem find_audio_output_mem (videoId : String) (fs : List String) (p : String)
    (h : find_audio_output videoId fs = some p) : p ∈ fs := by
  unfold find_audio_output at h
  split at h
  next hc =>
    cases h
    simpa using hc
  next => cases h

theorem find_video_output_mem (videoId : String) (fs : List String) (p : String)
    (h : find_video_output videoId fs = some p) : p ∈ fs := by
  have := List.find?_some h
  simpa using this

theorem find_audio_output_none (videoId : String) (f : List String)
    (h : tempName videoId "mp3" ∉ f) : find_audio_output videoId f = none := by
  unfold find_audio_output
  rw [if_neg (by simpa using h)]

/-- C2: around every profile attempt of a media fetch, the fetcher deletes
every file named by the identifier with a recognized output extension: the
filesystem handed to the extraction tool at each attempt contains none of
them, and after a fetch that ends in failure none of them remains on disk —
for the audio fetcher and the video fetcher alike, whatever the black-box
download does to the filesystem. -/
theorem media_fetch_cleanup
    (dl : List String → List String → List String × Option String)
    (videoId : String) (fs : List String) :
    ((∀ fsPre ∈ (download_audio dl videoId fs).2.2, ∀ ext ∈ audio_exts,
        tempName videoId ext ∉ fsPre) ∧
      ∀ e, (download_audio dl videoId fs).1 = .error e →
        ∀ ext ∈ audio_exts, tempName videoId ext ∉ (download_audio dl videoId fs).2.1) ∧
    ((∀ fsPre ∈ (download_video dl videoId fs).2.2, ∀ ext ∈ video_exts,
        tempName videoId ext ∉ fsPre) ∧
      ∀ e, (download_video dl videoId fs).1 = .error e →
        ∀ ext ∈ video_exts, tempName videoId ext ∉ (download_video dl videoId fs).2.1) := by
  refine ⟨⟨?_, ?_⟩, ?_, ?_⟩
  · exact fetch_media_go_trace_clean dl audio_exts (find_audio_output videoId) _ _ videoId
      player_clients_list none fs
  · intro e hres
    rcases fetch_media_go_error_clean dl audio_exts (find_audio_output videoId) _ _ videoId e
        player_clients_list none fs hres with hnil | hclean
    · simp [player_clients_list] at hnil
    · exact hclean
  · exact fetch_media_go_trace_clean dl video_exts (find_video_output videoId) _ _ videoId
      player_clients_list none fs
  · intro e hres
    rcases fetch_media_go_error_clean dl video_exts (find_video_output videoId) _ _ videoId e
        player_clients_list none fs hres with hnil | hclean
    · simp [player_clients_list] at hnil
    · exact hclean

/-- A download stub whose every attempt raises, for the C2 witness. -/
def dl_fail_stub : List String → List String → List String × Option String :=
  fun _ f => (f, some "e")

/-- Witness for C2: after an end-to-end failed audio fetch started with a
stale artifact on disk, the artifact is gone. -/
theorem media_fetch_cleanup_witness :
    tempName "vid" "mp3" ∉ (download_audio dl_fail_stub "vid" [tempName "vid" "mp3"]).2.1 :=
  (media_fetch_cleanup dl_fail_stub "vid" [tempName "vid" "mp3"]).1.2 "e" rfl "mp3"
    (by decide)

/-- C3: a media fetch never returns a path that is not on disk: whenever the
audio or video fetcher returns a path, that file exists in the final
filesystem; and when every attempt reports success without materializing a
recognized output, the fetch fails with the missing-output error. -/
theorem media_fetch_missing_output
    (dl : List String → List String → List String × Option String)
    (videoId : String) (fs : List String) :
    (∀ p, (download_audio dl videoId fs).1 = .ok p →
      p ∈ (download_audio dl videoId fs).2.1) ∧
    (∀ p, (download_video dl videoId fs).1 = .ok p →
      p ∈ (download_video dl videoId fs).2.1) ∧
    ((∀ pc f, (dl pc f).2 = none) →
      (∀ pc f, tempName videoId "mp3" ∉ (dl pc f).1) →
      (download_audio dl videoId fs).1 =
        .error ("Downloaded file not found: " ++ tempName videoId "mp3")) := by
  refine ⟨?_, ?_, fun h1 h2 => ?_⟩
  · exact fun p => fetch_media_go_ok_mem dl audio_exts (find_audio_output videoId) _ _
      videoId (fun f q => find_audio_output_mem videoId f q) player_clients_list none fs p
  · exact fun p => fetch_media_go_ok_mem dl video_exts (find_video_output videoId) _ _
      videoId (fun f q => find_video_output_mem videoId f q) player_clients_list none fs p
  · exact fetch_media_go_all_missing dl audio_exts (find_audio_output videoId) _ _ videoId
      h1 (fun pc f => find_audio_output_none videoId (dl pc f).1 (h2 pc f))
      player_clients_list none fs
      (by simp [player_clients_list])

/-- A download stub that reports success without producing any file, for the
C3 witness. -/
def dl_noout_stub : List String → List String → List String × Option String :=
  fun _ _ => ([], none)

/-- Witness for C3: a fetch whose every attempt reports success but produces
nothing ends in the missing-output error. -/
theorem media_fetch_missing_output_witness :
    (download_audio dl_noout_stub "vid" []).1 =
      .error ("Downloaded file not found: " ++ tempName "vid" "mp3") :=
  (media_fetch_missing_output dl_noout_stub "vid" []).2.2 (fun _ _ => rfl)
    (fun _ _ => by simp [dl_noout_stub])

/-- C8: a format-selection callback whose identifier has no session entry is
answered with the resend message and nothing else happens: the store is
unchanged and no metadata fetch, media fetch or relay start occurs (hence no
temp artifact is created). -/
theorem expired_session_no_fetch (env : FlowEnv) (store : SStore)
    (data p0 fmt id : String)
    (hsplit : split_maxsplit2 data = [p0, fmt, id])
    (hstore : store_get store id = none) :
    handle_format_selection env store data =
      (store, [.ack, .storeGet id,
        .reply "❌ Video URL not found. Please send the link again."]) ∧
    Ev.infoFetch ∉ (handle_format_selection env store data).2 ∧
    (∀ k, Ev.mediaFetch k ∉ (handle_format_selection env store data).2) ∧
    Ev.relayStart ∉ (handle_format_selection env store data).2 := by
  have h : handle_format_selection env store data =
      (store, [.ack, .storeGet id,
        .reply "❌ Video URL not found. Please send the link again."]) := by
    simp only [handle_format_selection, hsplit, hstore, Option.getD]
    rfl
  refine ⟨h, ?_, fun k => ?_, ?_⟩ <;> rw [h] <;> simp

/-- An environment whose black-box calls all fail, for witnesses that never
reach them. -/
def env_stub : FlowEnv := ⟨.error "e", .error "e", "", false, false⟩

/-- Witness for C8: the spec's own scenario, a callback for an identifier
with no session entry. -/
theorem expired_session_no_fetch_witness :
    handle_format_selection env_stub store_empty "format:mp4:XXXXXXXXXXX" =
      (store_empty, [.ack, .storeGet "XXXXXXXXXXX",
        .reply "❌ Video URL not found. Please send the link again."]) :=
  (expired_session_no_fetch env_stub store_empty "format:mp4:XXXXXXXXXXX"
    "format" "mp4" "XXXXXXXXXXX" (by decide) rfl).1

/-- C10: a callback whose payload does not split into exactly three
colon-separated parts is answered with the invalid-format message and
returns: the session store is neither consulted nor changed, and no fetch or
relay activity occurs. -/
theorem malformed_callback_no_state_change (env : FlowEnv) (store : SStore)
    (data : String) (hlen : (split_maxsplit2 data).length ≠ 3) :
    handle_format_selection env store data =
      (store, [.ack, .reply "❌ Invalid format selection."]) ∧
    (∀ k, Ev.storeGet k ∉ (handle_format_selection env store data).2) ∧
    Ev.infoFetch ∉ (handle_format_selection env store data).2 ∧
    (∀ k, Ev.mediaFetch k ∉ (handle_format_selection env store data).2) := by
  have h : handle_format_selection env store data =
      (store, [.ack, .reply "❌ Invalid format selection."]) := by
    rcases hs : split_maxsplit2 data with _ | ⟨a, _ | ⟨b, _ | ⟨c, _ | ⟨d, rest⟩⟩⟩⟩
    · simp only [handle_format_selection, hs]
    · simp only [handle_format_selection, hs]
    · simp only [handle_format_selection, hs]
    · exact absurd (by rw [hs]; rfl) hlen
    · simp only [handle_format_selection, hs]
  refine ⟨h, fun k => ?_, ?_, fun k => ?_⟩ <;> rw [h] <;> simp

/-- Witness for C10: a payload with only one colon. -/
theorem malformed_callback_no_state_change_witness :
    handle_format_selection env_stub store_empty "format:mp3" =
      (store_empty, [.ack, .reply "❌ Invalid format selection."]) :=
  (malformed_callback_no_state_change env_stub store_empty "format:mp3"
    (by decide)).1

/-- Counterexample to C7 as stated: after a format is chosen, when the
metadata re-fetch fails the flow exits through the outer error handler
without ever entering the cleanup step, so the session entry for the
identifier survives and no relay cancellation (and no temp-file step) is
recorded. -/
theorem format_flow_cleanup_cex :
    (handle_format_selection ⟨.error "boom", .ok "abcdefghijk.mp3", "", false, false⟩
        (store_put store_empty "abcdefghijk" "u") "format:mp3:abcdefghijk").1
        "abcdefghijk" = some "u" ∧
    Ev.sessionPop "abcdefghijk" ∉
      (handle_format_selection ⟨.error "boom", .ok "abcdefghijk.mp3", "", false, false⟩
        (store_put store_empty "abcdefghijk" "u") "format:mp3:abcdefghijk").2 ∧
    Ev.relayCancel ∉
      (handle_format_selection ⟨.error "boom", .ok "abcdefghijk.mp3", "", false, false⟩
        (store_put store_empty "abcdefghijk" "u") "format:mp3:abcdefghijk").2 := by
  refine ⟨rfl, by decide, by decide⟩

/-- C7 amended: once the relay has been started — that is, once the metadata
re-fetch made after the format choice has succeeded — every exit path
(media-fetch success, media-fetch failure, unknown format kind) runs the
cleanup step: the relay is canceled and awaited, the temp-artifact removal is
attempted with any failure in it logged and swallowed, and the session entry
is removed; when the metadata re-fetch itself fails, the flow only renders
the classified error and the session entry is not removed. -/
theorem format_flow_cleanup_after_relay_start (env : FlowEnv) (store : SStore)
    (data p0 fmt id url : String) (info : VideoInfo)
    (hsplit : split_maxsplit2 data = [p0, fmt, id])
    (hurl : store_get store id = some url) (hne : url ≠ "")
    (hinfo : env.info = .ok info) :
    (handle_format_selection env store data).1 id = none ∧
    Ev.relayCancel ∈ (handle_format_selection env store data).2 ∧
    Ev.relayAwait ∈ (handle_format_selection env store data).2 ∧
    Ev.sessionPop id ∈ (handle_format_selection env store data).2 ∧
    (∀ p, env.media = .ok p → env.artifact_exists = true →
      fmt = "mp3" ∨ fmt = "mp4" →
      Ev.unlinkTemp p ∈ (handle_format_selection env store data).2) ∧
    (∀ e, env.media = .error e → fmt = "mp3" ∨ fmt = "mp4" →
      Ev.cleanupFailLogged ∈ (handle_format_selection env store data).2) := by
  by_cases h3 : fmt = "mp3" <;> by_cases h4 : fmt = "mp4"
  · rw [h3] at h4
    exact absurd h4 (by decide)
  · subst h3
    cases hm : env.media with
    | ok p =>
      refine ⟨?_, ?_, ?_, ?_, fun q hq hex _ => ?_, fun e he _ => ?_⟩ <;>
        simp_all [handle_format_selection, hsplit, hurl, hne, hinfo, hm, cleanup_evs,
          store_get, store_pop]
    | error e =>
      refine ⟨?_, ?_, ?_, ?_, fun q hq hex _ => ?_, fun e' he _ => ?_⟩ <;>
        simp_all [handle_format_selection, hsplit, hurl, hne, hinfo, hm, cleanup_evs,
          store_get, store_pop]
  · subst h4
    cases hm : env.media with
    | ok p =>
      refine ⟨?_, ?_, ?_, ?_, fun q hq hex _ => ?_, fun e he _ => ?_⟩ <;>
        simp_all [handle_format_selection, hsplit, hurl, hne, hinfo, hm, cleanup_evs,
          store_get, store_pop]
    | error e =>
      refine ⟨?_, ?_, ?_, ?_, fun q hq hex _ => ?_, fun e' he _ => ?_⟩ <;>
        simp_all [handle_format_selection, hsplit, hurl, hne, hinfo, hm, cleanup_evs,
          store_get, store_pop]
  · refine ⟨?_, ?_, ?_, ?_, fun q hq hex hk => ?_, fun e he hk => ?_⟩ <;>
      first
      | (rcases hk with h | h
         · exact absurd h h3
         · exact absurd h h4)
      | simp_all [handle_format_selection, hsplit, hurl, hne, hinfo, cleanup_evs,
          store_get, store_pop, h3, h4]

/-- A successful concrete flow environment, shared by the flow witnesses. -/
def env_ok_stub : FlowEnv :=
  ⟨.ok ⟨"t", 61, "u", "abcdefghijk"⟩, .ok "abcdefghijk.mp3", "1 MB", false, true⟩

/-- Witness for C7 amended: a concrete successful flow removes its session
entry. -/
theorem format_flow_cleanup_after_relay_start_witness :
    (handle_format_selection env_ok_stub (store_put store_empty "abcdefghijk" "u")
      "format:mp3:abcdefghijk").1 "abcdefghijk" = none :=
  (format_flow_cleanup_after_relay_start env_ok_stub
    (store_put store_empty "abcdefghijk" "u") "format:mp3:abcdefghijk"
    "format" "mp3" "abcdefghijk" "u" ⟨"t", 61, "u", "abcdefghijk"⟩
    (by decide) rfl (by decide) rfl).1

/-- Counterexample to C9 as stated: on a successful fetch the terminal
status update (the Done edit) is made inside the try block, before the
cleanup step cancels the relay, so the cancellation is not awaited before the
orchestrator's terminal update. -/
theorem relay_cancel_order_cex :
    relay_stops_before_terminal_edit
      (handle_format_selection env_ok_stub (store_put store_empty "abcdefghijk" "u")
        "format:mp3:abcdefghijk").2 = false := by decide

/-- C9 amended: the relay is canceled and the cancellation awaited in the
same cleanup step regardless of the media fetch's outcome; when the media
fetch fails, both precede the terminal status re-render (the error message),
so the relay cannot write after it — but on a successful fetch the terminal
Done edit precedes the cancellation. -/
theorem relay_cancel_before_error_render (env : FlowEnv) (store : SStore)
    (data p0 fmt id url e : String) (info : VideoInfo)
    (hsplit : split_maxsplit2 data = [p0, fmt, id])
    (hurl : store_get store id = some url) (hne : url ≠ "")
    (hinfo : env.info = .ok info)
    (hfmt : fmt = "mp3" ∨ fmt = "mp4") (hm : env.media = .error e) :
    Ev.relayCancel ∈ (handle_format_selection env store data).2 ∧
    Ev.relayAwait ∈ (handle_format_selection env store data).2 ∧
    relay_stops_before_terminal_edit (handle_format_selection env store data).2 = true := by
  rcases hfmt with h | h <;> subst h <;>
    refine ⟨?_, ?_, ?_⟩ <;>
      simp_all [handle_format_selection, hsplit, hurl, hne, hinfo, hm, cleanup_evs,
        store_get, relay_stops_before_terminal_edit, first_idx, last_edit_idx,
        is_cancel, is_await, is_edit]

/-- A flow environment whose media fetch fails, for the C9 witness. -/
def env_dlfail_stub : FlowEnv :=
  ⟨.ok ⟨"t", 61, "u", "abcdefghijk"⟩, .error "boom", "", false, false⟩

/-- Witness for C9 amended: in a concrete failed fetch the relay is stopped
before the terminal error render. -/
theorem relay_cancel_before_error_render_witness :
    relay_stops_before_terminal_edit
      (handle_format_selection env_dlfail_stub (store_put store_empty "abcdefghijk" "u")
        "format:mp3:abcdefghijk").2 = true :=
  (relay_cancel_before_error_render env_dlfail_stub
    (store_put store_empty "abcdefghijk" "u") "format:mp3:abcdefghijk"
    "format" "mp3" "abcdefghijk" "u" "boom" ⟨"t", 61, "u", "abcdefghijk"⟩
    (by decide) rfl (by decide) rfl (Or.inl rfl) rfl).2.2

theorem stripLit_sound (lit : List Char) :
    ∀ cs r, stripLit lit cs = some r → cs = lit ++ r := by
  induction lit with
  | nil =>
    intro cs r h
    cases h
    rfl
  | cons l ls ih =>
    intro cs r h
    cases cs with
    | nil => cases h
    | cons c cs' =>
      simp only [stripLit] at h
      split at h
      next heq =>
        subst heq
        rw [List.cons_append, ih cs' r h]
      next => cases h

theorem stripLit_self (lit r : List Char) : stripLit lit (lit ++ r) = some r := by
  induction lit with
  | nil => rfl
  | cons l ls ih => simp [stripLit, ih]

theorem grabId_sound (r v : List Char) (h : grabId r = some v) :
    validId v = true ∧ ∃ t, r = v ++ t := by
  simp only [grabId] at h
  split at h
  next hc =>
    cases h
    exact ⟨by simpa [validId] using hc, r.drop 11, (List.take_append_drop 11 r).symm⟩
  next => cases h

theorem grabId_complete (v t : List Char) (hv : validId v = true) :
    grabId (v ++ t) = some v := by
  have h1 : v.length = 11 := by
    unfold validId at hv
    simp only [Bool.and_eq_true, decide_eq_true_eq] at hv
    exact hv.1
  simp only [grabId, List.take_left' h1]
  unfold validId at hv
  rw [hv]
  rfl

theorem matchCoreAt_sound (core cs v : List Char) (h : matchCoreAt core cs = some v) :
    validId v = true ∧ ∃ suf, cs = core ++ (v ++ suf) := by
  unfold matchCoreAt at h
  rcases hs : stripLit core cs with _ | rest
  · rw [hs] at h
    cases h
  · rw [hs] at h
    rcases grabId_sound rest v h with ⟨hv, t, ht⟩
    exact ⟨hv, t, by rw [stripLit_sound core cs rest hs, ht]⟩

theorem matchCoreAt_complete (core v suf : List Char) (hv : validId v = true) :
    matchCoreAt core (core ++ (v ++ suf)) = some v := by
  unfold matchCoreAt
  rw [stripLit_self]
  exact grabId_complete v suf hv

theorem findSome?_exists {α β : Type} (f : α → Option β) :
    ∀ (l : List α) (b : β), l.findSome? f = some b → ∃ a, a ∈ l ∧ f a = some b := by
  intro l
  induction l with
  | nil =>
    intro b h
    cases h
  | cons a as ih =>
    intro b h
    simp only [List.findSome?] at h
    rcases hfa : f a with _ | c
    · rw [hfa] at h
      rcases ih b h with ⟨x, hx, hfx⟩
      exact ⟨x, List.mem_cons_of_mem a hx, hfx⟩
    · rw [hfa] at h
      cases h
      exact ⟨a, List.mem_cons_self a as, hfa⟩

theorem findSome?_isSome_of_mem {α β : Type} (f : α → Option β) :
    ∀ (l : List α) (a : α), a ∈ l → (f a).isSome → (l.findSome? f).isSome := by
  intro l
  induction l with
  | nil =>
    intro a ha
    cases ha
  | cons x xs ih =>
    intro a ha hfa
    simp only [List.findSome?]
    rcases hfx : f x with _ | c
    · rcases List.mem_cons.mp ha with rfl | ha'
      · rw [hfx] at hfa
        cases hfa
      · exact ih a ha' hfa
    · rfl

theorem urlPrefixAlts_suffix (cs r : List Char) (h : r ∈ urlPrefixAlts cs) :
    ∃ p, cs = p ++ r := by
  unfold urlPrefixAlts at h
  rw [List.mem_append, List.mem_append] at h
  rcases h with (h | h) | h
  · rcases h1 : stripLit ("https://".toList) cs with _ | r1 <;> rw [h1] at h
    · cases h
    · rw [List.mem_singleton] at h
      subst h
      exact ⟨_, stripLit_sound _ _ _ h1⟩
  · rcases h1 : stripLit ("http://".toList) cs with _ | r1 <;> rw [h1] at h
    · cases h
    · rw [List.mem_singleton] at h
      subst h
      exact ⟨_, stripLit_sound _ _ _ h1⟩
  · rw [List.mem_singleton] at h
    subst h
    exact ⟨[], rfl⟩

theorem wwwAlts_suffix (cs r : List Char) (h : r ∈ wwwAlts cs) :
    ∃ p, cs = p ++ r := by
  unfold wwwAlts at h
  rw [List.mem_append] at h
  rcases h with h | h
  · rcases h1 : stripLit ("www.".toList) cs with _ | r1 <;> rw [h1] at h
    · cases h
    · rw [List.mem_singleton] at h
      subst h
      exact ⟨_, stripLit_sound _ _ _ h1⟩
  · rw [List.mem_singleton] at h
    subst h
    exact ⟨[], rfl⟩

theorem self_mem_urlPrefixAlts (cs : List Char) : cs ∈ urlPrefixAlts cs := by
  unfold urlPrefixAlts
  simp

theorem self_mem_wwwAlts (cs : List Char) : cs ∈ wwwAlts cs := by
  unfold wwwAlts
  simp

theorem matchPatternAt_sound (cores : List (List Char)) (cs v : List Char)
    (h : matchPatternAt cores cs = some v) :
    ∃ pre core suf, core ∈ cores ∧ validId v = true ∧
      cs = pre ++ core ++ v ++ suf := by
  unfold matchPatternAt at h
  rcases findSome?_exists _ _ _ h with ⟨r1, hr1, h1⟩
  rcases findSome?_exists _ _ _ h1 with ⟨r2, hr2, h2⟩
  rcases findSome?_exists _ _ _ h2 with ⟨core, hcore, h3⟩
  rcases matchCoreAt_sound _ _ _ h3 with ⟨hv, suf, hsuf⟩
  rcases wwwAlts_suffix _ _ hr2 with ⟨p2, hp2⟩
  rcases urlPrefixAlts_suffix _ _ hr1 with ⟨p1, hp1⟩
  refine ⟨p1 ++ p2, core, suf, hcore, hv, ?_⟩
  rw [hp1, hp2, hsuf]
  simp [List.append_assoc]

theorem matchPatternAt_complete (cores : List (List Char)) (core v suf : List Char)
    (hcore : core ∈ cores) (hv : validId v = true) :
    (matchPatternAt cores (core ++ (v ++ suf))).isSome := by
  unfold matchPatternAt
  apply findSome?_isSome_of_mem _ _ _ (self_mem_urlPrefixAlts _)
  apply findSome?_isSome_of_mem _ _ _ (self_mem_wwwAlts _)
  apply findSome?_isSome_of_mem _ _ _ hcore
  rw [matchCoreAt_complete core v suf hv]
  rfl

theorem re_search_sound (cores : List (List Char)) :
    ∀ (cs v : List Char), re_search cores cs = some v →
      ∃ pre core suf, core ∈ cores ∧ validId v = true ∧
        cs = pre ++ core ++ v ++ suf := by
  intro cs
  induction cs with
  | nil =>
    intro v h
    rw [re_search] at h
    exact matchPatternAt_sound _ _ _ h
  | cons c rest ih =>
    intro v h
    simp only [re_search] at h
    rcases hm : matchPatternAt cores (c :: rest) with _ | w
    · rw [hm] at h
      rcases ih v h with ⟨pre, core, suf, h1, h2, h3⟩
      exact ⟨c :: pre, core, suf, h1, h2, by simp [h3, List.append_assoc]⟩
    · rw [hm] at h
      cases h
      exact matchPatternAt_sound _ _ _ hm

theorem re_search_complete (cores : List (List Char)) :
    ∀ (pre rest : List Char), (matchPatternAt cores rest).isSome →
      (re_search cores (pre ++ rest)).isSome := by
  intro pre
  induction pre with
  | nil =>
    intro rest h
    rw [List.nil_append]
    cases rest with
    | nil =>
      rw [re_search]
      exact h
    | cons c cs =>
      simp only [re_search]
      rcases hm : matchPatternAt cores (c :: cs) with _ | w
      · rw [hm] at h
        cases h
      · rfl
  | cons p ps ih =>
    intro rest h
    rw [List.cons_append]
    simp only [re_search]
    rcases hm : matchPatternAt cores (p :: (ps ++ rest)) with _ | w
    · exact ih rest h
    · rfl

theorem patterns_cores_sub (cores : List (List Char)) (core : List Char)
    (h1 : cores ∈ YOUTUBE_PATTERNS) (h2 : core ∈ cores) : core ∈ shapeCores := by
  simp only [YOUTUBE_PATTERNS, List.mem_cons, List.mem_singleton, List.not_mem_nil,
    or_false] at h1
  rcases h1 with rfl | rfl | rfl <;>
    simp only [List.mem_cons, List.mem_singleton, List.not_mem_nil, or_false] at h2 <;>
    simp only [shapeCores, List.mem_cons, List.mem_singleton, List.not_mem_nil,
      or_false] <;>
    tauto

theorem shapeCores_covered (core : List Char) (h : core ∈ shapeCores) :
    ∃ cores, cores ∈ YOUTUBE_PATTERNS ∧ core ∈ cores := by
  simp only [shapeCores, List.mem_cons, List.mem_singleton, List.not_mem_nil,
    or_false] at h
  rcases h with rfl | rfl | rfl | rfl
  · exact ⟨[pat_watch, pat_be], by simp [YOUTUBE_PATTERNS], by simp⟩
  · exact ⟨[pat_watch, pat_be], by simp [YOUTUBE_PATTERNS], by simp⟩
  · exact ⟨[pat_embed], by simp [YOUTUBE_PATTERNS], by simp⟩
  · exact ⟨[pat_shorts], by simp [YOUTUBE_PATTERNS], by simp⟩

/-- C5: the link parser's contract: whatever identifier it returns sits in
the input right after one of the four supported shape cores and is a valid
eleven-character identifier (soundness); an input containing a supported
shape with a valid identifier always yields a match (completeness); an input
containing none yields no match; and when the input determines the
identifier uniquely, the parser returns exactly that identifier.  The
embedding is a pure function, so the parser has no side effects. -/
theorem extract_video_id_spec (s : String) :
    (∀ v, extract_video_id s = some v →
      ∃ pre core suf, core ∈ shapeCores ∧ validId v.toList = true ∧
        s.toList = pre ++ core ++ v.toList ++ suf) ∧
    (hasShape s.toList → (extract_video_id s).isSome) ∧
    (¬ hasShape s.toList → extract_video_id s = none) ∧
    (∀ id : List Char,
      (∃ pre core suf, core ∈ shapeCores ∧ validId id = true ∧
        s.toList = pre ++ core ++ id ++ suf) →
      (∀ pre core id' suf, core ∈ shapeCores → validId id' = true →
        s.toList = pre ++ core ++ id' ++ suf → id' = id) →
      extract_video_id s = some (String.mk id)) := by
  have hsound : ∀ v, extract_video_id s = some v →
      ∃ pre core suf, core ∈ shapeCores ∧ validId v.toList = true ∧
        s.toList = pre ++ core ++ v.toList ++ suf := by
    intro v h
    unfold extract_video_id at h
    rcases Option.map_eq_some'.mp h with ⟨w, hw, hv⟩
    rcases findSome?_exists _ _ _ hw with ⟨cores, hcores, hre⟩
    rcases re_search_sound cores s.toList w hre with ⟨pre, core, suf, h1, h2, h3⟩
    subst hv
    exact ⟨pre, core, suf, patterns_cores_sub cores core hcores h1, h2, h3⟩
  have hcompl : hasShape s.toList → (extract_video_id s).isSome := by
    rintro ⟨pre, core, id, suf, hcore, hv, heq⟩
    rcases shapeCores_covered core hcore with ⟨cores, hmem, hin⟩
    unfold extract_video_id
    rw [Option.isSome_map']
    apply findSome?_isSome_of_mem _ _ _ hmem
    have heq' : s.toList = pre ++ (core ++ (id ++ suf)) := by
      rw [heq]
      simp [List.append_assoc]
    rw [heq']
    exact re_search_complete cores pre _ (matchPatternAt_complete cores core id suf hin hv)
  refine ⟨hsound, hcompl, ?_, ?_⟩
  · intro hno
    rcases he : extract_video_id s with _ | v
    · rfl
    · rcases hsound v he with ⟨pre, core, suf, h1, h2, h3⟩
      exact absurd ⟨pre, core, v.toList, suf, h1, h2, h3⟩ hno
  · intro id hex huniq
    rcases hex with ⟨pre, core, suf, hcore, hv, heq⟩
    have hs : (extract_video_id s).isSome :=
      hcompl ⟨pre, core, id, suf, hcore, hv, heq⟩
    rcases Option.isSome_iff_exists.mp hs with ⟨v, hv'⟩
    rcases hsound v hv' with ⟨pre', core', suf', h1, h2, h3⟩
    have hid : v.toList = id := huniq pre' core' v.toList suf' h1 h2 h3
    rw [hv']
    exact congrArg some (String.ext hid)

/-- Witness for C5: the spec's example short link yields a match. -/
theorem extract_video_id_spec_witness :
    (extract_video_id "https://youtu.be/dQw4w9WgXcQ").isSome :=
  (extract_video_id_spec "https://youtu.be/dQw4w9WgXcQ").2.1
    ⟨"https://".toList, pat_be, "dQw4w9WgXcQ".toList, [], by decide, by decide, by decide⟩

end PodcastBot
